import Mathlib

/-!
Verification development for mp42str (src/main.cpp), a small ISO-BMFF (MP4)
box walker that extracts timing metadata and writes an SRT subtitle file.

Shallow embedding conventions:
* A file is a `List Nat` of bytes; cells are normalized with `% 256` at every
  read site (`byteAt`), since C++ reads produce 8-bit bytes.
* Machine integers are `Nat` with explicit `% 2 ^ 64` / `% 2 ^ 32` where the
  C++ performs modular (unsigned) arithmetic.
* Fallible code (`throw` in C++) returns `Except Err` / an `Option Err`
  component; console and file side effects are reified as a `List Out` of
  output events.  The purely decorative console lines (banner, icons,
  "Reading video file", "Writing timecodes...") are not modeled; every
  data-carrying output is.
* The global DEBUG flag is modeled as false (none of the verified behavior
  is about -debug mode); the XMLonly flag is an explicit parameter.
-/

namespace MP42Str

/-- A byte stream or buffer: list of byte values. -/
abbrev Bytes := List Nat

/-- Read one byte of a buffer: out-of-range reads are always guarded by the
source before indexing, so the default 0 is never observable; `% 256`
normalizes cells to byte range (C++ buffers hold 8-bit bytes). -/
def byteAt (s : Bytes) (i : Nat) : Nat := s.getD i 0 % 256

/-- Plain big-endian 32-bit value of 4 bytes, as the source intends
(`main.cpp` lines 60-63 without the sign-extension slip). -/
def be32 (s : Bytes) (off : Nat) : Nat :=
  byteAt s off * 16777216 + byteAt s (off + 1) * 65536 +
    byteAt s (off + 2) * 256 + byteAt s (off + 3)

/-- Value actually computed by `read_uint64_from_bytes` (main.cpp lines 60-63):
`uint64_t(static_cast<unsigned char>(data[offset]) << 24) | ...`.  The widening
cast is applied to the already-shifted `int`, so a first byte at or above 0x80
lands in the sign bit of the 32-bit `int` shift and the conversion to
`uint64_t` sign-extends: the result gains `2 ^ 64 - 2 ^ 32`. -/
def beRead32sx (s : Bytes) (off : Nat) : Nat :=
  if byteAt s off < 128 then be32 s off else be32 s off + 18446744069414584320

/-- Plain big-endian 64-bit value of 8 bytes (main.cpp lines 199-206: every
byte is cast to `uint64_t` before shifting, so no sign extension here). -/
def be64 (s : Bytes) (off : Nat) : Nat :=
  byteAt s off * 72057594037927936 + byteAt s (off + 1) * 281474976710656 +
    byteAt s (off + 2) * 1099511627776 + byteAt s (off + 3) * 4294967296 +
    byteAt s (off + 4) * 16777216 + byteAt s (off + 5) * 65536 +
    byteAt s (off + 6) * 256 + byteAt s (off + 7)

/-- Exceptions thrown while decoding; all of them are caught by the top-level
traversal loop (main.cpp lines 276-278) and end the walk silently. -/
inductive Err where
  /-- std::out_of_range from `read_uint64_from_bytes` / `extract_string`. -/
  | outOfRange
  /-- runtime_error "End of file reached while reading box header." -/
  | eofHeader
  /-- runtime_error "End of file reached while reading extended size." -/
  | eofExt
  /-- fuel exhaustion of the model (no C++ counterpart; walk loops forever). -/
  | fuel
  deriving DecidableEq

/-- Data-carrying outputs of the program.  `Option` is `none` where the C++
behavior is undefined (reads through invalid iterators, or an out-of-range
double-to-int conversion) and the printed value is unspecified. -/
inductive Out where
  /-- console line "MP4 Atom box cannot be size 0." (main.cpp line 185). -/
  | sizeZeroMsg
  /-- console line "MP4 Major Brand: ..." (line 233); none when boxSize < 4
  (the 4-byte string copy would read past the buffer, undefined). -/
  | majorBrand (brand : Option Bytes)
  /-- console line "First timestamp: ..." (line 240). -/
  | firstTimestamp (s : String)
  /-- console line "File duration: N seconds" (line 246); none when the
  double-to-int conversion of the rounded quotient is undefined
  (zero timescale or a quotient outside int range). -/
  | fileDuration (n : Option Nat)
  /-- content of the .srt file written by `write_dates_to_srt` (lines
  151-167); none when the duration int is undefined. -/
  | srtFile (content : Option String)
  /-- console line "This file contains additional data in XML." (line 98). -/
  | xmlPresent
  /-- the XML text printed in -xml mode (line 104); none when the slice
  iterators of line 100 are out of range or crossed (undefined). -/
  | xmlText (bytes : Option Bytes)
  deriving DecidableEq

/-- How the top-level traversal loop ended. -/
inductive EndKind where
  /-- model fuel ran out (the C++ loop would keep iterating). -/
  | fuelOut
  /-- an exception was caught at the top of the loop: silent stop (line 276). -/
  | caught (e : Err)
  /-- `read_box` returned the -1 sentinel for a zero-size box and the loop
  broke (lines 184-187 and 272-274). -/
  | sizeZeroStop
  /-- a payload read came up short, so the stream failbit is set and the next
  header read will throw: silent stop one step later, with no extra output. -/
  | badStream
  deriving DecidableEq

/-- main.cpp lines 55-64: bounds guard, then the (sign-extending) 32-bit read. -/
def read_uint64_from_bytes (data : Bytes) (offset : Nat) : Except Err Nat :=
  if offset + 4 > data.length then .error .outOfRange
  else .ok (beRead32sx data offset)

/-- main.cpp lines 66-71. -/
def extract_string (data : Bytes) (start length : Nat) : Except Err Bytes :=
  if start + length > data.length then .error .outOfRange
  else .ok (((data.drop start).take length).map (fun b => b % 256))

/-- The 4-byte tag "ftyp". -/
def tagFtyp : Bytes := [102, 116, 121, 112]
/-- The 4-byte tag "moov". -/
def tagMoov : Bytes := [109, 111, 111, 118]
/-- The 4-byte tag "mvhd". -/
def tagMvhd : Bytes := [109, 118, 104, 100]
/-- The 4-byte tag "meta". -/
def tagMeta : Bytes := [109, 101, 116, 97]
/-- The 4-byte tag "xml " (with trailing space). -/
def tagXml : Bytes := [120, 109, 108, 32]

/-- Proleptic Gregorian date for a day count since 1970-01-01 (the civil
calendar computed by `gmtime`), returned as (year, month, day). -/
def civilFromDays (days : Nat) : Nat × Nat × Nat :=
  let z := days + 719468
  let era := z / 146097
  let doe := z % 146097
  let yoe := (doe - doe / 1460 + doe / 36524 - doe / 146096) / 365
  let y := yoe + era * 400
  let doy := doe - (365 * yoe + yoe / 4 - yoe / 100)
  let mp := (5 * doy + 2) / 153
  let d := doy - (153 * mp + 2) / 5 + 1
  let m := if mp < 10 then mp + 3 else mp - 9
  (if m ≤ 2 then y + 1 else y, m, d)

/-- Two-digit zero padding, as %02d (values of 100 or more keep all digits). -/
def pad2 (n : Nat) : String := if n < 10 then "0" ++ toString n else toString n

/-- gmtime + strftime with format "%d-%m-%Y %H:%M:%S" (or with a newline
instead of the space when `breakLine`), for a nonnegative epoch timestamp. -/
def formatDate (t : Nat) (breakLine : Bool) : String :=
  let days := t / 86400
  let rem := t % 86400
  let ymd := civilFromDays days
  pad2 ymd.2.2 ++ "-" ++ pad2 ymd.2.1 ++ "-" ++ toString ymd.1 ++
    (if breakLine then "\n" else " ") ++
    pad2 (rem / 3600) ++ ":" ++ pad2 (rem % 3600 / 60) ++ ":" ++ pad2 (rem % 60)

/-- main.cpp lines 45-53: the `uint32_t timestamp` parameter truncates the
argument modulo 2 ^ 32; gmtime/strftime then format it as a UTC date. -/
def convert_timestamp_to_date (timestamp : Nat) (break_line : Bool) : String :=
  formatDate (timestamp % 4294967296) break_line

/-- main.cpp lines 118-125.  The intended string "HH:MM:SS,000" has 12
characters, but `snprintf` into the 12-byte `buffer` keeps at most 11
characters plus the terminator, so the last character is dropped. -/
def format_seconds (total_seconds : Nat) : String :=
  (pad2 (total_seconds / 3600) ++ ":" ++ pad2 (total_seconds % 3600 / 60) ++
    ":" ++ pad2 (total_seconds % 60) ++ ",000").take 11

/-- main.cpp lines 151-167: content of the written .srt file, one cue per
date: 1-based index line, time range line, the date text, a blank line. -/
def write_dates_to_srt (dates_list : List String) : String :=
  String.join ((List.range dates_list.length).map (fun i =>
    toString (i + 1) ++ "\n" ++ format_seconds i ++ " --> " ++
      format_seconds (i + 1) ++ "\n" ++ dates_list.getD i "" ++ "\n\n"))

/-- Round-to-nearest of d / t for nonnegative values, halves away from zero:
the value of C `round((double)d / (double)t)` whenever d and t are exactly
representable doubles and the quotient is not so close to a half-integer that
the correctly rounded division could cross it.  (For d, t below 2 ^ 32 this
always agrees: the quotient is within ulp/2 < 1/(2t) of the real value.) -/
def round_nearest (d t : Nat) : Nat := (2 * d + t) / (2 * t)

/-- main.cpp line 244: `int duration_seconds = round((double)duration /
(double)time_scale)`.  `none` models undefined behavior: a zero timescale
makes the double quotient infinite or NaN, and any rounded quotient outside
int range makes the double-to-int conversion undefined. -/
def duration_seconds (d t : Nat) : Option Nat :=
  if t = 0 then none
  else if round_nearest d t < 2147483648 then some (round_nearest d t) else none

/-- main.cpp line 239: `creation_time_raw = read_uint64_from_bytes(data, 4) -
2082844800` in uint64 arithmetic, given the raw (possibly sign-extended) read. -/
def mvhd_creation_raw (c : Nat) : Nat :=
  (c + (18446744073709551616 - 2082844800)) % 18446744073709551616

/-- main.cpp lines 248-251: the per-second timecode strings, entry i formatted
from `creation_time_raw + i` (truncated to uint32 by the callee). -/
def mvhd_timecode (craw q : Nat) : List String :=
  (List.range q).map (fun i => convert_timestamp_to_date (craw + i) true)

/-- main.cpp lines 237-253, the mvhd branch of `read_box`, applied to the
buffer read after the 8-byte header: outputs produced, and the exception (if
any) that escapes.  Outputs printed before a throw are kept. -/
def mvhdOuts (data : Bytes) : List Out × Option Err :=
  match read_uint64_from_bytes data 4 with
  | .error e => ([], some e)
  | .ok c0 =>
    let craw := mvhd_creation_raw c0
    let ts := Out.firstTimestamp (convert_timestamp_to_date craw false)
    match read_uint64_from_bytes data 12 with
    | .error e => ([ts], some e)
    | .ok t =>
      match read_uint64_from_bytes data 16 with
      | .error e => ([ts], some e)
      | .ok d =>
        match duration_seconds d t with
        | none => ([ts, Out.fileDuration none, Out.srtFile none], none)
        | some q =>
          ([ts, Out.fileDuration (some q),
            Out.srtFile (some (write_dates_to_srt (mvhd_timecode craw q)))], none)

/-- main.cpp lines 83-110, the nested-box loop of `parse_meta` from position
`pos` inside the meta buffer.  `box_size` is a `uint32_t`, truncating the
(possibly sign-extended) read; a zero size breaks the loop; an "xml " box in
-xml mode prints the byte range [pos+12, pos+box_size-1) RAW: lines 101-102
build a NUL-stripped copy in the local `xmlSTR`, but line 104 prints the
unstripped `xml_data`, so the strip is dead code.  The printed slice is
`none` (undefined) when the two iterators of line 100 are crossed or past the
end of the buffer.  Fuel `data.length + 1` at the wrapper is enough for every
run, as the position strictly increases while below `data.length`. -/
def parseMetaLoop (xmlOnly : Bool) (data : Bytes) : Nat → Nat → List Out × Option Err
  | 0, _ => ([], some .fuel)
  | fuel + 1, pos =>
    if pos < data.length then
      match read_uint64_from_bytes data pos with
      | .error e => ([], some e)
      | .ok raw =>
        if raw % 4294967296 = 0 then ([], none)
        else
          match extract_string data (pos + 4) 4 with
          | .error e => ([], some e)
          | .ok box_type =>
            ((if box_type = tagXml then
                if xmlOnly then
                  if 13 ≤ raw % 4294967296 ∧
                      pos + raw % 4294967296 - 1 ≤ data.length then
                    [Out.xmlText (some (((data.drop (pos + 12)).take
                      (raw % 4294967296 - 13)).map (fun b => b % 256)))]
                  else [Out.xmlText none]
                else [Out.xmlPresent]
              else []) ++
              (parseMetaLoop xmlOnly data fuel (pos + raw % 4294967296)).1,
              (parseMetaLoop xmlOnly data fuel (pos + raw % 4294967296)).2)
    else ([], none)

/-- main.cpp lines 73-111: `parse_meta` starts its sub-walk at offset 4 of the
buffer (skipping the 4-byte version/flags prefix; the buffer itself starts
right after the 8-byte meta header). -/
def parse_meta (xmlOnly : Bool) (data : Bytes) : List Out × Option Err :=
  parseMetaLoop xmlOnly data (data.length + 1) 4

/-- An `ifstream::read` of n bytes at a position: the bytes obtained, padded
with zeroes to length n exactly as reading into a value-initialized
`vector<char>(n)` leaves the tail zeroed, and a flag telling whether the read
came up short (which sets the stream failbit, making every later read fail). -/
def readAvail (s : Bytes) (pos n : Nat) : Bytes × Bool :=
  let avail := (s.drop pos).take n
  (avail.map (fun b => b % 256) ++ List.replicate (n - avail.length) 0,
    avail.length < n)

/-- The 4-byte type tag of the box whose header starts at `p` (bytes 4-7 of
the header, main.cpp line 212). -/
def boxTag (s : Bytes) (p : Nat) : Bytes :=
  [byteAt s (p + 4), byteAt s (p + 5), byteAt s (p + 6), byteAt s (p + 7)]

/-- main.cpp lines 174-212, the header-decoding part of `read_box`:
returns (size, tag, header length).  The 8-byte header read throws on a short
read; a declared 32-bit size of 0 is passed through before the extended-size
check (the caller prints the diagnostic and returns the -1 sentinel); a
declared size of 1 reads 8 further bytes as a big-endian unsigned 64-bit
extended size (throwing on a short read) and the header length becomes 16.
An extended size of 0 is NOT re-checked by the source, hence it comes back
as size 0 with header length 16 and is dispatched normally. -/
def read_box_header (s : Bytes) (p : Nat) : Except Err (Nat × Bytes × Nat) :=
  if s.length < p + 8 then .error .eofHeader
  else if beRead32sx s p = 0 then .ok (0, boxTag s p, 8)
  else if beRead32sx s p = 1 then
    if s.length < p + 16 then .error .eofExt
    else .ok (be64 s (p + 8), boxTag s p, 16)
  else .ok (beRead32sx s p, boxTag s p, 8)

/-- main.cpp lines 173-262, `read_box` at stream position `p`: the outputs it
prints and either the thrown exception or `.ok (returned size, failbit)`.
The returned size is the uint64 return value; for a zero 32-bit size the
source returns -1, i.e. 2 ^ 64 - 1 as uint64 (line 186).  The Bool records a
short payload read (stream failbit: the next read in the walk will throw).
For the recognized types the payload buffer is read from `p + header length`
with the full box size as its length (so it reaches 8 bytes past the box
end -- faithful to line 221/228).  A `moov` box recurses exactly once into
`read_box` at `p + header length` (line 236) ignoring its return value but
propagating its exceptions; if the moov payload read itself came up short the
recursive header read throws at once.  Fuel only bounds the moov recursion
depth, which grows the position by at least 8 per level. -/
def read_box (xmlOnly : Bool) (s : Bytes) : Nat → Nat → List Out × Except Err (Nat × Bool)
  | 0, _ => ([], .error .fuel)
  | fuel + 1, p =>
    match read_box_header s p with
    | .error e => ([], .error e)
    | .ok (size, tag, hlen) =>
      if hlen = 8 ∧ size = 0 then
        ([Out.sizeZeroMsg], .ok (18446744073709551615, false))
      else if xmlOnly then
        if tag = tagMeta then
          match parse_meta true (readAvail s (p + hlen) size).1 with
          | (outs, some e) => (outs, .error e)
          | (outs, none) => (outs, .ok (size, (readAvail s (p + hlen) size).2))
        else ([], .ok (size, false))
      else if tag = tagFtyp then
        ((if 4 ≤ size then
            [Out.majorBrand (some ((readAvail s (p + hlen) size).1.take 4))]
          else [Out.majorBrand none]),
          .ok (size, (readAvail s (p + hlen) size).2))
      else if tag = tagMoov then
        if (readAvail s (p + hlen) size).2 then ([], .error .eofHeader)
        else
          match read_box xmlOnly s fuel (p + hlen) with
          | (outs, .error e) => (outs, .error e)
          | (outs, .ok r) => (outs, .ok (size, r.2))
      else if tag = tagMvhd then
        match mvhdOuts (readAvail s (p + hlen) size).1 with
        | (outs, some e) => (outs, .error e)
        | (outs, none) => (outs, .ok (size, (readAvail s (p + hlen) size).2))
      else if tag = tagMeta then
        match parse_meta false (readAvail s (p + hlen) size).1 with
        | (outs, some e) => (outs, .error e)
        | (outs, none) => (outs, .ok (size, (readAvail s (p + hlen) size).2))
      else ([], .ok (size, false))

/-- main.cpp lines 264-280, the top-level traversal loop from position `pos`:
collected outputs, the list of positions at which a box header was
successfully decoded, and how the loop ended.  Every exception is caught and
ends the walk silently; the -1 sentinel (a returned size of 2 ^ 64 - 1)
breaks the loop; otherwise the position advances by the returned size in
uint64 arithmetic.  A set failbit is reported as `badStream`: the next
iteration of the source loop throws on its header read, producing no further
output and no further visited position. -/
def walkLoop (xmlOnly : Bool) (s : Bytes) : Nat → Nat → List Out × List Nat × EndKind
  | 0, _ => ([], [], .fuelOut)
  | fuel + 1, pos =>
    match read_box xmlOnly s (fuel + 1) pos with
    | (outs, .error e) => (outs, [], .caught e)
    | (outs, .ok (size, bad)) =>
      if size = 18446744073709551615 then (outs, [pos], .sizeZeroStop)
      else if bad then (outs, [pos], .badStream)
      else
        (outs ++
            (walkLoop xmlOnly s fuel ((pos + size) % 18446744073709551616)).1,
          pos ::
            (walkLoop xmlOnly s fuel ((pos + size) % 18446744073709551616)).2.1,
          (walkLoop xmlOnly s fuel ((pos + size) % 18446744073709551616)).2.2)

/-- main.cpp lines 264-280: the whole walk starts at position 0. -/
def parse_mp4_atoms (xmlOnly : Bool) (s : Bytes) (fuel : Nat) :
    List Out × List Nat × EndKind :=
  walkLoop xmlOnly s fuel 0

/-- An mvhd payload buffer whose creation field is 0x7C25B080 (= 2082844800,
the Mac epoch origin of the Unix epoch), timescale field 0x80000000 and
duration field 0xC0000000 (both with the high bit set). -/
def payloadHighBit : Bytes :=
  [0, 0, 0, 0, 124, 37, 176, 128, 0, 0, 0, 0, 128, 0, 0, 0, 192, 0, 0, 0]

/-- An mvhd payload buffer with a zero timescale field (duration 5). -/
def payloadZeroScale : Bytes :=
  [0, 0, 0, 0, 124, 37, 176, 128, 0, 0, 0, 0, 0, 0, 0, 0, 0, 0, 0, 5]

/-- An mvhd payload buffer with creation field 100, timescale 1, duration 2. -/
def payloadSmall : Bytes :=
  [0, 0, 0, 0, 0, 0, 0, 100, 0, 0, 0, 0, 0, 0, 0, 1, 0, 0, 0, 2]

/-- An mvhd payload buffer (only 8 bytes long) whose creation field is the
Mac epoch origin 2082844800 = 0x7C25B080. -/
def payloadEpoch : Bytes := [0, 0, 0, 0, 124, 37, 176, 128]

/-- A meta payload buffer: 4 version/flag bytes, then one nested box of
size 20 with tag "xml " whose extracted range [4+12, 4+20-1) contains the
7 bytes 0x3C 0x61 0x00 0x3E 0x00 0x41 0x42 -- with two embedded NULs. -/
def metaNulPayload : Bytes :=
  [0, 0, 0, 0, 0, 0, 0, 20, 120, 109, 108, 32, 0, 0, 0, 0,
   60, 97, 0, 62, 0, 65, 66, 99]

/-- A stream whose single top-level box declares a 32-bit size of 0. -/
def streamZeroBox : Bytes := [0, 0, 0, 0, 109, 100, 97, 116]

/-- A stream: an 8-byte "free" box at 0, then at 8 a box with declared size 1
and extended 64-bit size 0xFFFFFFFFFFFFFFF8 = 2 ^ 64 - 8, so that the
uint64 position 8 + size wraps around to 0. -/
def streamWrap : Bytes :=
  [0, 0, 0, 8, 102, 114, 101, 101, 0, 0, 0, 1, 115, 107, 105, 112,
   255, 255, 255, 255, 255, 255, 255, 248]

/-- A stream: at 0 a box with declared size 1, tag "skip" and extended size
16, then an 8-byte "free" box at 16. -/
def streamExtSixteen : Bytes :=
  [0, 0, 0, 1, 115, 107, 105, 112, 0, 0, 0, 0, 0, 0, 0, 16,
   0, 0, 0, 8, 102, 114, 101, 101]

/-- A family of streams: one top-level moov box of declared size
s0s1s2s3 (big-endian) whose first child is a 16-byte ftyp box with major
brand "isom", followed by `rest` (the remaining moov payload: further
children, never visited), and after the moov box one 8-byte "free" box.
When the size field equals 24 + rest.length the moov box spans exactly the
header, the ftyp child and `rest`. -/
def moovStream (s0 s1 s2 s3 : Nat) (rest : Bytes) : Bytes :=
  [s0, s1, s2, s3, 109, 111, 111, 118, 0, 0, 0, 16, 102, 116, 121, 112,
   105, 115, 111, 109, 0, 0, 0, 0] ++ (rest ++ [0, 0, 0, 8, 102, 114, 101, 101])

/-- A complete 28-byte mvhd box (creation 100, timescale 1, duration 2),
used as a second child inside a moov payload. -/
def mvhdChild : Bytes :=
  [0, 0, 0, 28, 109, 118, 104, 100, 0, 0, 0, 0, 0, 0, 0, 100,
   0, 0, 0, 0, 0, 0, 0, 1, 0, 0, 0, 2]

/-- A complete 32-byte meta box (4-byte size 32, tag, then `metaNulPayload`),
used as a child inside a moov payload. -/
def metaChild : Bytes := [0, 0, 0, 32, 109, 101, 116, 97] ++ metaNulPayload

/-- A stream with one top-level meta box of size 28 whose payload is
`metaNulPayload` padded with four zero bytes. -/
def streamTopMeta : Bytes :=
  [0, 0, 0, 28, 109, 101, 116, 97] ++ metaNulPayload ++ [0, 0, 0, 0]

/-! Helper lemmas. -/

theorem byteAt_lt (s : Bytes) (i : Nat) : byteAt s i < 256 :=
  Nat.mod_lt _ (by norm_num)

theorem be32_lt (s : Bytes) (off : Nat) : be32 s off < 4294967296 := by
  have h0 := byteAt_lt s off
  have h1 := byteAt_lt s (off + 1)
  have h2 := byteAt_lt s (off + 2)
  have h3 := byteAt_lt s (off + 3)
  unfold be32
  omega

theorem byteAt_append_left (l₁ l₂ : Bytes) (k : Nat) (h : k < l₁.length) :
    byteAt (l₁ ++ l₂) k = byteAt l₁ k := by
  unfold byteAt
  rw [List.getD_append _ _ _ _ h]

theorem byteAt_append_right (l₁ l₂ : Bytes) (k : Nat) (h : l₁.length ≤ k) :
    byteAt (l₁ ++ l₂) k = byteAt l₂ (k - l₁.length) := by
  unfold byteAt
  rw [List.getD_append_right _ _ _ _ h]

theorem mvhdOuts_head (data : Bytes) (c0 : Nat)
    (h : read_uint64_from_bytes data 4 = .ok c0) :
    ∃ rest, (mvhdOuts data).1 =
      Out.firstTimestamp (convert_timestamp_to_date (mvhd_creation_raw c0) false)
        :: rest := by
  unfold mvhdOuts
  rw [h]
  dsimp only
  split
  · exact ⟨[], rfl⟩
  · split
    · exact ⟨[], rfl⟩
    · split
      · exact ⟨[Out.fileDuration none, Out.srtFile none], rfl⟩
      · exact ⟨_, rfl⟩

theorem mod_64_to_32 (x y : Nat) :
    (x % 18446744073709551616 + y) % 4294967296 = (x + y) % 4294967296 := by
  conv_rhs => rw [Nat.add_mod, ← Nat.mod_mod_of_dvd x (by norm_num :
    (4294967296 : Nat) ∣ 18446744073709551616), ← Nat.add_mod]

theorem creation_raw_mod (data : Bytes) (i : Nat) :
    (mvhd_creation_raw (beRead32sx data 4) + i) % 4294967296 =
      (be32 data 4 + i + 2212122496) % 4294967296 := by
  have hb := be32_lt data 4
  unfold mvhd_creation_raw beRead32sx
  rw [mod_64_to_32]
  split <;> omega

/-! Theorems for the claims. -/

/-- C1: the claim says that for an mvhd payload with timescale field t > 0 and
duration field d the decoder reports round(d / t) seconds and generates that
many timecode entries.  The code is wrong: `read_uint64_from_bytes`
sign-extends any field whose first byte is at least 0x80 (the widening cast
sits outside the int shift), so for t = 0x80000000 and d = 0xC0000000 it
divides 0xFFFFFFFFC0000000 by 0xFFFFFFFF80000000 and reports 1 second with
one timecode entry, while round(d / t) = round(1.5) = 2. -/
theorem mvhd_duration_sign_extension :
    mvhdOuts payloadHighBit =
      ([Out.firstTimestamp "01-01-1970 00:00:00", Out.fileDuration (some 1),
        Out.srtFile (some
          "1\n00:00:00,00 --> 00:00:01,00\n01-01-1970\n00:00:00\n\n")], none)
    ∧ round_nearest 3221225472 2147483648 = 2 := by decide

/-- C2: the claim says the text emitted for a nested "xml " box has every NUL
byte removed.  The code is wrong: lines 101-102 of main.cpp build the
NUL-stripped copy in the local `xmlSTR` but line 104 prints the raw
`xml_data`, so the emitted bytes still contain the NULs (here two of them). -/
theorem meta_xml_nul_emitted :
    parse_meta true metaNulPayload =
      ([Out.xmlText (some [60, 97, 0, 62, 0, 65, 66])], none)
    ∧ 0 ∈ [60, 97, 0, 62, 0, 65, 66]
    ∧ [60, 97, 0, 62, 0, 65, 66].filter (fun b => b ≠ 0) ≠
        [60, 97, 0, 62, 0, 65, 66] := by decide

/-- C3: the claim says a zero timescale makes decoding fail with a format
error before the division.  The code is wrong: it has no zero check at all
(main.cpp lines 242-244); the decode runs to completion with no exception
(`none` error component) and reaches the division, whose double quotient is
infinite and whose int conversion is undefined (the `fileDuration none` /
`srtFile none` events). -/
theorem mvhd_zero_timescale_no_failure :
    mvhdOuts payloadZeroScale =
      ([Out.firstTimestamp "01-01-1970 00:00:00", Out.fileDuration none,
        Out.srtFile none], none) := by decide

/-- C7: the claim says each time range line reads "HH:MM:SS,000 -->
HH:MM:SS,000".  The code is wrong: `format_seconds` wants to produce the
12-character "HH:MM:SS,000" (its own doc comment says so) but `snprintf` into
the 12-byte buffer keeps only 11 characters, so every written time stamp is
"HH:MM:SS,00".  The rest of the claimed cue layout (index line, time range
line, text, blank separator) is as claimed. -/
theorem srt_time_line_truncated :
    write_dates_to_srt ["x"] = "1\n00:00:00,00 --> 00:00:01,00\nx\n\n"
    ∧ format_seconds 0 = "00:00:00,00"
    ∧ format_seconds 0 ≠ "00:00:00,000" := by decide

/-- C5 counterexample: a box at position 8 declares size 1 with extended size
0xFFFFFFFFFFFFFFF8 = 2 ^ 64 - 8.  The claim says the walk resumes
immediately after the box, i.e. 2 ^ 64 - 8 bytes past its start (position
8 + (2 ^ 64 - 8) = 2 ^ 64).  Instead the uint64 position wraps to 0 and the
walk revisits position 0 right after position 8 (visited positions
[0, 8, 0, 8, 0] with fuel 5), resuming BEFORE the box. -/
theorem walk_extended_size_wraparound :
    parse_mp4_atoms false streamWrap 5 = ([], [0, 8, 0, 8, 0], EndKind.fuelOut)
    ∧ be64 streamWrap 16 = 18446744073709551608
    ∧ 8 + 18446744073709551608 = 18446744073709551616 := by decide

/-- C4: in either mode, when the top-level walk reaches a box whose declared
32-bit size is 0 (four zero bytes, with the 8-byte header readable), it ends
at that box at once: from that box on the only output is the terminal
size-zero diagnostic printed at the box itself, the box position is the last
position visited, and the loop breaks normally (the -1 sentinel path), with
no exception escaping to the user. -/
theorem walk_stops_at_zero_size_box (xmlOnly : Bool) (s : Bytes)
    (pos fuel : Nat) (hfuel : 1 ≤ fuel) (hlen : pos + 8 ≤ s.length)
    (h0 : byteAt s pos = 0) (h1 : byteAt s (pos + 1) = 0)
    (h2 : byteAt s (pos + 2) = 0) (h3 : byteAt s (pos + 3) = 0) :
    walkLoop xmlOnly s fuel pos = ([Out.sizeZeroMsg], [pos], EndKind.sizeZeroStop) := by
  obtain ⟨f, rfl⟩ : ∃ f, fuel = f + 1 := ⟨fuel - 1, by omega⟩
  have hsz : beRead32sx s pos = 0 := by
    unfold beRead32sx be32
    rw [h0, h1, h2, h3]
    norm_num
  have hhdr : read_box_header s pos = .ok (0, boxTag s pos, 8) := by
    unfold read_box_header
    rw [if_neg (by omega), hsz]
    norm_num
  have hbox : read_box xmlOnly s (f + 1) pos =
      ([Out.sizeZeroMsg], .ok (18446744073709551615, false)) := by
    unfold read_box
    rw [hhdr]
    norm_num
  unfold walkLoop
  rw [hbox]
  norm_num

/-- C4 witness: the concrete one-box stream with a zero size field. -/
theorem walk_stops_at_zero_size_box_witness :
    1 ≤ 1 ∧ 0 + 8 ≤ streamZeroBox.length ∧ byteAt streamZeroBox 0 = 0 ∧
    byteAt streamZeroBox 1 = 0 ∧ byteAt streamZeroBox 2 = 0 ∧
    byteAt streamZeroBox 3 = 0 ∧
    walkLoop false streamZeroBox 1 0 =
      ([Out.sizeZeroMsg], [0], EndKind.sizeZeroStop) :=
  ⟨by decide, by decide, by decide, by decide, by decide, by decide,
    walk_stops_at_zero_size_box false streamZeroBox 0 1 (by decide) (by decide)
      (by decide) (by decide) (by decide) (by decide)⟩

/-- C6: for an mvhd creation-time field equal to 2082844800 (bytes 0x7C 0x25
0xB0 0x80, the Mac-epoch origin of the Unix epoch), the epoch-adjusted
uint64 timestamp is 0 and the reported creation date line carries exactly
the string "01-01-1970 00:00:00". -/
theorem mvhd_epoch_origin_date (data : Bytes) (hlen : 8 ≤ data.length)
    (h4 : byteAt data 4 = 124) (h5 : byteAt data 5 = 37)
    (h6 : byteAt data 6 = 176) (h7 : byteAt data 7 = 128) :
    mvhd_creation_raw (beRead32sx data 4) = 0 ∧
    ∃ rest, (mvhdOuts data).1 =
      Out.firstTimestamp "01-01-1970 00:00:00" :: rest := by
  have hc : beRead32sx data 4 = 2082844800 := by
    unfold beRead32sx be32
    norm_num [h4, h5, h6, h7]
  have hcraw : mvhd_creation_raw 2082844800 = 0 := by decide
  have hread : read_uint64_from_bytes data 4 = .ok 2082844800 := by
    unfold read_uint64_from_bytes
    rw [if_neg (by omega), hc]
  refine ⟨by rw [hc]; exact hcraw, ?_⟩
  obtain ⟨rest, hr⟩ := mvhdOuts_head data 2082844800 hread
  refine ⟨rest, ?_⟩
  rw [hr]
  have hstr : convert_timestamp_to_date (mvhd_creation_raw 2082844800) false =
      "01-01-1970 00:00:00" := by decide
  rw [hstr]

/-- C6 witness: the 8-byte payload with creation field 0x7C25B080. -/
theorem mvhd_epoch_origin_date_witness :
    8 ≤ payloadEpoch.length ∧ byteAt payloadEpoch 4 = 124 ∧
    byteAt payloadEpoch 5 = 37 ∧ byteAt payloadEpoch 6 = 176 ∧
    byteAt payloadEpoch 7 = 128 ∧
    (mvhd_creation_raw (beRead32sx payloadEpoch 4) = 0 ∧
      ∃ rest, (mvhdOuts payloadEpoch).1 =
        Out.firstTimestamp "01-01-1970 00:00:00" :: rest) :=
  ⟨by decide, by decide, by decide, by decide, by decide,
    mvhd_epoch_origin_date payloadEpoch (by decide) (by decide) (by decide)
      (by decide) (by decide)⟩

/-- C10: the epoch adjustment and formatting work modulo 2 ^ 32: the reported
creation date formats (creation_field - 2082844800) mod 2 ^ 32 (written below
with 2212122496 = 2 ^ 32 - 2082844800 to stay in Nat), every timecode entry i
formats (creation_field - 2082844800 + i) mod 2 ^ 32, and when the creation
field is below 2082844800 the formatted value wraps to a value of at least
2 ^ 32 - 2082844800 (a large positive timestamp, not a pre-1970 date).  The
sign extension of the raw read vanishes modulo 2 ^ 32. -/
theorem mvhd_arithmetic_mod_2_32 (data : Bytes) (hlen : 8 ≤ data.length) :
    (∃ rest, (mvhdOuts data).1 =
      Out.firstTimestamp
        (formatDate ((be32 data 4 + 2212122496) % 4294967296) false) :: rest)
    ∧ (∀ q i, i < q →
        (mvhd_timecode (mvhd_creation_raw (beRead32sx data 4)) q).getD i "" =
          formatDate ((be32 data 4 + i + 2212122496) % 4294967296) true)
    ∧ (be32 data 4 < 2082844800 →
        (be32 data 4 + 2212122496) % 4294967296 = be32 data 4 + 2212122496 ∧
        2212122496 ≤ be32 data 4 + 2212122496) := by
  have hb := be32_lt data 4
  refine ⟨?_, ?_, ?_⟩
  · have hread : read_uint64_from_bytes data 4 = .ok (beRead32sx data 4) := by
      unfold read_uint64_from_bytes
      rw [if_neg (by omega)]
    obtain ⟨rest, hr⟩ := mvhdOuts_head data (beRead32sx data 4) hread
    refine ⟨rest, ?_⟩
    rw [hr]
    unfold convert_timestamp_to_date
    have h0 : mvhd_creation_raw (beRead32sx data 4) % 4294967296 =
        (be32 data 4 + 2212122496) % 4294967296 := by
      have h := creation_raw_mod data 0
      omega
    rw [h0]
  · intro q i hi
    unfold mvhd_timecode
    have hl : i < ((List.range q).map
        (fun i => convert_timestamp_to_date
          (mvhd_creation_raw (beRead32sx data 4) + i) true)).length := by
      simpa using hi
    rw [List.getD_eq_getElem _ _ hl]
    simp only [List.getElem_map, List.getElem_range]
    unfold convert_timestamp_to_date
    rw [creation_raw_mod data i]
  · intro h
    omega

/-- C10 witness: the small payload with creation field 100 (below the Mac
epoch offset), timescale 1, duration 2. -/
theorem mvhd_arithmetic_mod_2_32_witness :
    8 ≤ payloadSmall.length ∧
    ((∃ rest, (mvhdOuts payloadSmall).1 =
      Out.firstTimestamp
        (formatDate ((be32 payloadSmall 4 + 2212122496) % 4294967296) false)
        :: rest)
    ∧ (∀ q i, i < q →
        (mvhd_timecode (mvhd_creation_raw (beRead32sx payloadSmall 4)) q).getD
            i "" =
          formatDate ((be32 payloadSmall 4 + i + 2212122496) % 4294967296) true)
    ∧ (be32 payloadSmall 4 < 2082844800 →
        (be32 payloadSmall 4 + 2212122496) % 4294967296 =
          be32 payloadSmall 4 + 2212122496 ∧
        2212122496 ≤ be32 payloadSmall 4 + 2212122496)) :=
  ⟨by decide, mvhd_arithmetic_mod_2_32 payloadSmall (by decide)⟩

/-- C5 (amended): a box with declared 32-bit size 1 makes the header reader
read 8 further bytes as a big-endian unsigned 64-bit extended size E and
treat the box as having total size E with a 16-byte header; the walk then
continues at position (start + E) mod 2 ^ 64 -- equal to "immediately after
the box" whenever start + E stays below 2 ^ 64 -- EXCEPT that E = 2 ^ 64 - 1
collides with the -1 error sentinel and stops the walk instead.  Stated for
an unrecognized tag, so that no payload processing interferes. -/
theorem extended_size_box (xmlOnly : Bool) (s : Bytes) (p fuel E : Nat)
    (hlen : p + 16 ≤ s.length)
    (h0 : byteAt s p = 0) (h1 : byteAt s (p + 1) = 0)
    (h2 : byteAt s (p + 2) = 0) (h3 : byteAt s (p + 3) = 1)
    (hE : be64 s (p + 8) = E)
    (ht1 : boxTag s p ≠ tagFtyp) (ht2 : boxTag s p ≠ tagMoov)
    (ht3 : boxTag s p ≠ tagMvhd) (ht4 : boxTag s p ≠ tagMeta) :
    read_box_header s p = .ok (E, boxTag s p, 16)
    ∧ (E ≠ 18446744073709551615 →
        walkLoop xmlOnly s (fuel + 1) p =
          ((walkLoop xmlOnly s fuel ((p + E) % 18446744073709551616)).1,
            p :: (walkLoop xmlOnly s fuel ((p + E) % 18446744073709551616)).2.1,
            (walkLoop xmlOnly s fuel ((p + E) % 18446744073709551616)).2.2))
    ∧ (E = 18446744073709551615 →
        walkLoop xmlOnly s (fuel + 1) p = ([], [p], EndKind.sizeZeroStop)) := by
  have hsz : beRead32sx s p = 1 := by
    unfold beRead32sx be32
    rw [h0, h1, h2, h3]
    norm_num
  have hhdr : read_box_header s p = .ok (E, boxTag s p, 16) := by
    unfold read_box_header
    rw [if_neg (show ¬ s.length < p + 8 by omega)]
    simp only [hsz]
    norm_num
    rw [if_neg (show ¬ s.length < p + 16 by omega), hE]
  have hbox : read_box xmlOnly s (fuel + 1) p = ([], .ok (E, false)) := by
    unfold read_box
    rw [hhdr]
    cases xmlOnly <;> simp [ht1, ht2, ht3, ht4]
  refine ⟨hhdr, ?_, ?_⟩
  · intro hne
    conv_lhs => rw [walkLoop]
    rw [hbox]
    simp [hne]
  · intro heq
    rw [heq] at hbox
    conv_lhs => rw [walkLoop]
    rw [hbox]
    simp

/-- C5 witness: box at 0 with size field 1, tag "skip", extended size 16,
followed by an 8-byte free box at 16. -/
theorem extended_size_box_witness :
    0 + 16 ≤ streamExtSixteen.length ∧ byteAt streamExtSixteen 0 = 0 ∧
    byteAt streamExtSixteen 1 = 0 ∧ byteAt streamExtSixteen 2 = 0 ∧
    byteAt streamExtSixteen 3 = 1 ∧ be64 streamExtSixteen 8 = 16 ∧
    (read_box_header streamExtSixteen 0 =
        .ok (16, boxTag streamExtSixteen 0, 16)
    ∧ ((16 : Nat) ≠ 18446744073709551615 →
        walkLoop false streamExtSixteen (2 + 1) 0 =
          ((walkLoop false streamExtSixteen 2
              ((0 + 16) % 18446744073709551616)).1,
            0 :: (walkLoop false streamExtSixteen 2
              ((0 + 16) % 18446744073709551616)).2.1,
            (walkLoop false streamExtSixteen 2
              ((0 + 16) % 18446744073709551616)).2.2))
    ∧ ((16 : Nat) = 18446744073709551615 →
        walkLoop false streamExtSixteen (2 + 1) 0 =
          ([], [0], EndKind.sizeZeroStop))) :=
  ⟨by decide, by decide, by decide, by decide, by decide, by decide,
    extended_size_box false streamExtSixteen 0 2 16 (by decide) (by decide)
      (by decide) (by decide) (by decide) (by decide) (by decide) (by decide)
      (by decide) (by decide)⟩

theorem readAvail_not_short (s : Bytes) (pos n : Nat) (h : pos + n ≤ s.length) :
    (readAvail s pos n).2 = false := by
  unfold readAvail
  simp only [decide_eq_false_iff_not, List.length_take, List.length_drop]
  omega

set_option maxRecDepth 8192 in
/-- C8: in default mode the walker handles a moov box by recursing into box
parsing exactly once, at start + header length, so it parses only the first
child of moov; the remaining moov payload (`rest` -- which may contain
arbitrary further children such as a complete mvhd box) is never examined,
and the outer walk then advances past the whole moov box by its declared
size.  Concretely: in a stream holding one moov box (size field s0..s3)
whose first child is an ftyp box with brand "isom", followed by `rest` and a
trailing free box, the walk emits exactly the one major-brand line whatever
`rest` holds, and the positions visited at the top level are 0 and the moov
size 24 + rest.length. -/
theorem moov_first_child_only (s0 s1 s2 s3 : Nat) (rest : Bytes) (fuel : Nat)
    (hb0 : s0 < 128) (hb1 : s1 < 256) (hb2 : s2 < 256) (hb3 : s3 < 256)
    (hS : s0 * 16777216 + s1 * 65536 + s2 * 256 + s3 = 24 + rest.length)
    (hfuel : 3 ≤ fuel) :
    parse_mp4_atoms false (moovStream s0 s1 s2 s3 rest) fuel =
      ([Out.majorBrand (some [105, 115, 111, 109])], [0, 24 + rest.length],
        EndKind.caught Err.eofHeader) := by
  obtain ⟨f, rfl⟩ : ∃ f, fuel = f + 3 := ⟨fuel - 3, by omega⟩
  have hslen : (moovStream s0 s1 s2 s3 rest).length = 32 + rest.length := by
    unfold moovStream
    simp
    omega
  -- the moov box header at 0
  have hsz0 : beRead32sx (moovStream s0 s1 s2 s3 rest) 0 = 24 + rest.length := by
    unfold beRead32sx be32
    have e0 : byteAt (moovStream s0 s1 s2 s3 rest) 0 = s0 % 256 := rfl
    have e1 : byteAt (moovStream s0 s1 s2 s3 rest) 1 = s1 % 256 := rfl
    have e2 : byteAt (moovStream s0 s1 s2 s3 rest) 2 = s2 % 256 := rfl
    have e3 : byteAt (moovStream s0 s1 s2 s3 rest) 3 = s3 % 256 := rfl
    rw [e0, e1, e2, e3, Nat.mod_eq_of_lt (show s0 < 256 by omega),
      Nat.mod_eq_of_lt hb1, Nat.mod_eq_of_lt hb2, Nat.mod_eq_of_lt hb3,
      if_pos hb0]
    exact hS
  have hhdr0 : read_box_header (moovStream s0 s1 s2 s3 rest) 0 =
      .ok (24 + rest.length, tagMoov, 8) := by
    unfold read_box_header
    rw [if_neg (show ¬ (moovStream s0 s1 s2 s3 rest).length < 0 + 8 by
          rw [hslen]; omega),
      hsz0, if_neg (by omega), if_neg (by omega),
      show boxTag (moovStream s0 s1 s2 s3 rest) 0 = tagMoov from rfl]
  -- the ftyp child header at 0 + 8
  have hsz8 : beRead32sx (moovStream s0 s1 s2 s3 rest) (0 + 8) = 16 := by
    unfold beRead32sx be32
    rw [show byteAt (moovStream s0 s1 s2 s3 rest) (0 + 8) = 0 from rfl,
      show byteAt (moovStream s0 s1 s2 s3 rest) (0 + 8 + 1) = 0 from rfl,
      show byteAt (moovStream s0 s1 s2 s3 rest) (0 + 8 + 2) = 0 from rfl,
      show byteAt (moovStream s0 s1 s2 s3 rest) (0 + 8 + 3) = 16 from rfl]
    norm_num
  have hhdr8 : read_box_header (moovStream s0 s1 s2 s3 rest) (0 + 8) =
      .ok (16, tagFtyp, 8) := by
    unfold read_box_header
    rw [if_neg (show ¬ (moovStream s0 s1 s2 s3 rest).length < 0 + 8 + 8 by
          rw [hslen]; omega),
      hsz8, if_neg (by omega), if_neg (by omega),
      show boxTag (moovStream s0 s1 s2 s3 rest) (0 + 8) = tagFtyp from rfl]
  -- reading the ftyp payload
  have hbrand : ((readAvail (moovStream s0 s1 s2 s3 rest) (0 + 8 + 8) 16).1).take 4
      = [105, 115, 111, 109] := rfl
  have hshortF : (readAvail (moovStream s0 s1 s2 s3 rest) (0 + 8 + 8) 16).2 = false :=
    readAvail_not_short _ _ _ (by rw [hslen]; omega)
  -- the recursive read_box on the first moov child
  have hbox8 : read_box false (moovStream s0 s1 s2 s3 rest) (f + 2) (0 + 8) =
      ([Out.majorBrand (some [105, 115, 111, 109])], .ok (16, false)) := by
    conv_lhs => rw [read_box]
    rw [hhdr8]
    dsimp only
    rw [if_neg (by omega), if_neg (by decide), if_pos rfl, if_pos (by omega),
      hbrand, hshortF]
  -- the moov read_box at 0
  have hshortM : (readAvail (moovStream s0 s1 s2 s3 rest) (0 + 8)
      (24 + rest.length)).2 = false :=
    readAvail_not_short _ _ _ (by rw [hslen]; omega)
  have hbox0 : read_box false (moovStream s0 s1 s2 s3 rest) (f + 3) 0 =
      ([Out.majorBrand (some [105, 115, 111, 109])],
        .ok (24 + rest.length, false)) := by
    conv_lhs => rw [read_box]
    rw [hhdr0]
    dsimp only
    rw [if_neg (by omega), if_neg (by decide), if_neg (by decide), if_pos rfl,
      hshortM, if_neg (by decide), hbox8]
  -- the free box header at 24 + rest.length
  have hfb : ∀ j, byteAt (moovStream s0 s1 s2 s3 rest) (24 + rest.length + j) =
      byteAt [0, 0, 0, 8, 102, 114, 101, 101] j := by
    intro j
    unfold moovStream
    rw [show [s0, s1, s2, s3, 109, 111, 111, 118, 0, 0, 0, 16, 102, 116, 121,
          112, 105, 115, 111, 109, 0, 0, 0, 0] ++
          (rest ++ [0, 0, 0, 8, 102, 114, 101, 101]) =
        ([s0, s1, s2, s3, 109, 111, 111, 118, 0, 0, 0, 16, 102, 116, 121,
          112, 105, 115, 111, 109, 0, 0, 0, 0] ++ rest) ++
          [0, 0, 0, 8, 102, 114, 101, 101] from (List.append_assoc _ _ _).symm]
    rw [byteAt_append_right _ _ _ (by simp; omega)]
    congr 1
    simp
    omega
  have hszS : beRead32sx (moovStream s0 s1 s2 s3 rest) (24 + rest.length) = 8 := by
    unfold beRead32sx be32
    rw [show byteAt (moovStream s0 s1 s2 s3 rest) (24 + rest.length) = 0 from
          hfb 0,
      show byteAt (moovStream s0 s1 s2 s3 rest) (24 + rest.length + 1) = 0 from
          hfb 1,
      show byteAt (moovStream s0 s1 s2 s3 rest) (24 + rest.length + 2) = 0 from
          hfb 2,
      show byteAt (moovStream s0 s1 s2 s3 rest) (24 + rest.length + 3) = 8 from
          hfb 3]
    norm_num
  have htagS : boxTag (moovStream s0 s1 s2 s3 rest) (24 + rest.length) =
      [102, 114, 101, 101] := by
    unfold boxTag
    rw [show byteAt (moovStream s0 s1 s2 s3 rest) (24 + rest.length + 4) = 102 from
          hfb 4,
      show byteAt (moovStream s0 s1 s2 s3 rest) (24 + rest.length + 5) = 114 from
          hfb 5,
      show byteAt (moovStream s0 s1 s2 s3 rest) (24 + rest.length + 6) = 101 from
          hfb 6,
      show byteAt (moovStream s0 s1 s2 s3 rest) (24 + rest.length + 7) = 101 from
          hfb 7]
  have hhdrS : read_box_header (moovStream s0 s1 s2 s3 rest) (24 + rest.length) =
      .ok (8, [102, 114, 101, 101], 8) := by
    unfold read_box_header
    rw [if_neg (show ¬ (moovStream s0 s1 s2 s3 rest).length <
          24 + rest.length + 8 by rw [hslen]; omega),
      hszS, if_neg (by omega), if_neg (by omega), htagS]
  have hboxS : read_box false (moovStream s0 s1 s2 s3 rest) (f + 2)
      (24 + rest.length) = ([], .ok (8, false)) := by
    conv_lhs => rw [read_box]
    rw [hhdrS]
    dsimp only
    rw [if_neg (by omega), if_neg (by decide), if_neg (by decide),
      if_neg (by decide), if_neg (by decide), if_neg (by decide)]
  -- past the end
  have hboxEnd : read_box false (moovStream s0 s1 s2 s3 rest) (f + 1)
      (24 + rest.length + 8) = ([], .error .eofHeader) := by
    conv_lhs => rw [read_box]
    rw [show read_box_header (moovStream s0 s1 s2 s3 rest)
          (24 + rest.length + 8) = .error .eofHeader by
        unfold read_box_header
        rw [if_pos (by rw [hslen]; omega)]]
  have hW1 : walkLoop false (moovStream s0 s1 s2 s3 rest) (f + 1)
      (24 + rest.length + 8) = ([], [], EndKind.caught Err.eofHeader) := by
    conv_lhs => rw [walkLoop]
    rw [hboxEnd]
  have hW2 : walkLoop false (moovStream s0 s1 s2 s3 rest) (f + 2)
      (24 + rest.length) = ([], [24 + rest.length], EndKind.caught Err.eofHeader) := by
    conv_lhs => rw [walkLoop]
    rw [hboxS]
    dsimp only
    rw [if_neg (by decide), if_neg (by decide),
      show (24 + rest.length + 8) % 18446744073709551616 =
        24 + rest.length + 8 from Nat.mod_eq_of_lt (by omega),
      hW1]
    simp
  unfold parse_mp4_atoms
  conv_lhs => rw [walkLoop]
  rw [hbox0]
  dsimp only
  rw [if_neg (by omega), if_neg (by decide),
    show (0 + (24 + rest.length)) % 18446744073709551616 =
      24 + rest.length by omega,
    hW2]
  simp

/-- C8 witness: the moov payload rest is a complete 28-byte mvhd box -- a
second child that is provably never decoded (no timestamp, duration or srt
output appears). -/
theorem moov_first_child_only_witness :
    (0 : Nat) < 128 ∧ (0 : Nat) < 256 ∧ (0 : Nat) < 256 ∧ (52 : Nat) < 256 ∧
    0 * 16777216 + 0 * 65536 + 0 * 256 + 52 = 24 + mvhdChild.length ∧
    (3 : Nat) ≤ 3 ∧
    parse_mp4_atoms false (moovStream 0 0 0 52 mvhdChild) 3 =
      ([Out.majorBrand (some [105, 115, 111, 109])], [0, 24 + mvhdChild.length],
        EndKind.caught Err.eofHeader) :=
  ⟨by decide, by decide, by decide, by decide, by decide, by decide,
    moov_first_child_only 0 0 0 52 mvhdChild 3 (by decide) (by decide)
      (by decide) (by decide) (by decide) (by decide)⟩

theorem parseMetaLoop_xml_outs (data : Bytes) :
    ∀ (fuel pos : Nat) (o : Out), o ∈ (parseMetaLoop true data fuel pos).1 →
      ∃ b, o = Out.xmlText b := by
  intro fuel
  induction fuel with
  | zero => intro pos o ho; simp [parseMetaLoop] at ho
  | succ f ih =>
    intro pos o ho
    rw [parseMetaLoop] at ho
    split at ho
    · split at ho
      · simp at ho
      · split at ho
        · simp at ho
        · split at ho
          · simp at ho
          · rw [List.mem_append] at ho
            rcases ho with ho | ho
            · split at ho
              · split at ho
                · split at ho
                  · exact ⟨_, by simpa using ho⟩
                  · exact ⟨_, by simpa using ho⟩
                · exact absurd rfl (by assumption)
              · simp at ho
            · exact ih _ o ho
    · simp at ho

theorem read_box_xml_outs (s : Bytes) (fuel pos : Nat) (o : Out)
    (ho : o ∈ (read_box true s fuel pos).1) :
    o = Out.sizeZeroMsg ∨ ∃ b, o = Out.xmlText b := by
  cases fuel with
  | zero => simp [read_box] at ho
  | succ f =>
    rw [read_box] at ho
    split at ho
    · simp at ho
    · split at ho
      · left
        simpa using ho
      · split at ho
        · split at ho
          · split at ho
            · next outs e heq =>
              simp only at ho
              have h1 := congrArg Prod.fst heq
              unfold parse_meta at h1
              dsimp only at h1
              rw [← h1] at ho
              exact Or.inr (parseMetaLoop_xml_outs _ _ _ o ho)
            · next outs heq =>
              simp only at ho
              have h1 := congrArg Prod.fst heq
              unfold parse_meta at h1
              dsimp only at h1
              rw [← h1] at ho
              exact Or.inr (parseMetaLoop_xml_outs _ _ _ o ho)
          · simp at ho
        · exact absurd rfl (by assumption)


set_option maxRecDepth 8192 in
/-- C9: in -xml mode the walker dispatches only on top-level meta boxes.
Part one: on EVERY stream and from every position, the only outputs the walk
can produce are the size-zero diagnostic and xml text -- never a major brand,
a timestamp, a duration or an srt file.  Part two: a moov box is skipped
without reading its payload, so a meta box nested inside it (`rest` may hold
one) is never examined: the walk over the moov-plus-free-box stream emits
nothing at all and just steps over both boxes. -/
theorem xml_mode_dispatches_only_meta :
    (∀ (s : Bytes) (fuel pos : Nat) (o : Out),
        o ∈ (walkLoop true s fuel pos).1 →
          o = Out.sizeZeroMsg ∨ ∃ b, o = Out.xmlText b)
    ∧ (∀ (s0 s1 s2 s3 : Nat) (rest : Bytes) (fuel : Nat),
        s0 < 128 → s1 < 256 → s2 < 256 → s3 < 256 →
        s0 * 16777216 + s1 * 65536 + s2 * 256 + s3 = 24 + rest.length →
        3 ≤ fuel →
        parse_mp4_atoms true (moovStream s0 s1 s2 s3 rest) fuel =
          ([], [0, 24 + rest.length], EndKind.caught Err.eofHeader)) := by
  constructor
  · intro s fuel
    induction fuel with
    | zero => intro pos o ho; simp [walkLoop] at ho
    | succ f ih =>
      intro pos o ho
      rw [walkLoop] at ho
      split at ho
      · next outs e heq =>
        simp only at ho
        have h1 := congrArg Prod.fst heq
        dsimp only at h1
        rw [← h1] at ho
        exact read_box_xml_outs s (f + 1) pos o ho
      · next outs size bad heq =>
        have h1 := congrArg Prod.fst heq
        dsimp only at h1
        split at ho
        · simp only at ho
          rw [← h1] at ho
          exact read_box_xml_outs s (f + 1) pos o ho
        · split at ho
          · simp only at ho
            rw [← h1] at ho
            exact read_box_xml_outs s (f + 1) pos o ho
          · simp only at ho
            rw [List.mem_append] at ho
            rcases ho with ho | ho
            · rw [← h1] at ho
              exact read_box_xml_outs s (f + 1) pos o ho
            · exact ih _ o ho
  · intro s0 s1 s2 s3 rest fuel hb0 hb1 hb2 hb3 hS hfuel
    obtain ⟨f, rfl⟩ : ∃ f, fuel = f + 3 := ⟨fuel - 3, by omega⟩
    have hslen : (moovStream s0 s1 s2 s3 rest).length = 32 + rest.length := by
      unfold moovStream
      simp
      omega
    have hsz0 : beRead32sx (moovStream s0 s1 s2 s3 rest) 0 = 24 + rest.length := by
      unfold beRead32sx be32
      have e0 : byteAt (moovStream s0 s1 s2 s3 rest) 0 = s0 % 256 := rfl
      have e1 : byteAt (moovStream s0 s1 s2 s3 rest) 1 = s1 % 256 := rfl
      have e2 : byteAt (moovStream s0 s1 s2 s3 rest) 2 = s2 % 256 := rfl
      have e3 : byteAt (moovStream s0 s1 s2 s3 rest) 3 = s3 % 256 := rfl
      rw [e0, e1, e2, e3, Nat.mod_eq_of_lt (show s0 < 256 by omega),
        Nat.mod_eq_of_lt hb1, Nat.mod_eq_of_lt hb2, Nat.mod_eq_of_lt hb3,
        if_pos hb0]
      exact hS
    have hhdr0 : read_box_header (moovStream s0 s1 s2 s3 rest) 0 =
        .ok (24 + rest.length, tagMoov, 8) := by
      unfold read_box_header
      rw [if_neg (show ¬ (moovStream s0 s1 s2 s3 rest).length < 0 + 8 by
            rw [hslen]; omega),
        hsz0, if_neg (by omega), if_neg (by omega),
        show boxTag (moovStream s0 s1 s2 s3 rest) 0 = tagMoov from rfl]
    have hbox0 : read_box true (moovStream s0 s1 s2 s3 rest) (f + 3) 0 =
        ([], .ok (24 + rest.length, false)) := by
      conv_lhs => rw [read_box]
      rw [hhdr0]
      dsimp only
      rw [if_neg (by omega), if_pos rfl, if_neg (by decide)]
    have hfb : ∀ j, byteAt (moovStream s0 s1 s2 s3 rest) (24 + rest.length + j) =
        byteAt [0, 0, 0, 8, 102, 114, 101, 101] j := by
      intro j
      unfold moovStream
      rw [show [s0, s1, s2, s3, 109, 111, 111, 118, 0, 0, 0, 16, 102, 116, 121,
            112, 105, 115, 111, 109, 0, 0, 0, 0] ++
            (rest ++ [0, 0, 0, 8, 102, 114, 101, 101]) =
          ([s0, s1, s2, s3, 109, 111, 111, 118, 0, 0, 0, 16, 102, 116, 121,
            112, 105, 115, 111, 109, 0, 0, 0, 0] ++ rest) ++
            [0, 0, 0, 8, 102, 114, 101, 101] from (List.append_assoc _ _ _).symm]
      rw [byteAt_append_right _ _ _ (by simp; omega)]
      congr 1
      simp
      omega
    have hszS : beRead32sx (moovStream s0 s1 s2 s3 rest) (24 + rest.length) = 8 := by
      unfold beRead32sx be32
      rw [show byteAt (moovStream s0 s1 s2 s3 rest) (24 + rest.length) = 0 from
            hfb 0,
        show byteAt (moovStream s0 s1 s2 s3 rest) (24 + rest.length + 1) = 0 from
            hfb 1,
        show byteAt (moovStream s0 s1 s2 s3 rest) (24 + rest.length + 2) = 0 from
            hfb 2,
        show byteAt (moovStream s0 s1 s2 s3 rest) (24 + rest.length + 3) = 8 from
            hfb 3]
      norm_num
    have htagS : boxTag (moovStream s0 s1 s2 s3 rest) (24 + rest.length) =
        [102, 114, 101, 101] := by
      unfold boxTag
      rw [show byteAt (moovStream s0 s1 s2 s3 rest) (24 + rest.length + 4) = 102
            from hfb 4,
        show byteAt (moovStream s0 s1 s2 s3 rest) (24 + rest.length + 5) = 114
            from hfb 5,
        show byteAt (moovStream s0 s1 s2 s3 rest) (24 + rest.length + 6) = 101
            from hfb 6,
        show byteAt (moovStream s0 s1 s2 s3 rest) (24 + rest.length + 7) = 101
            from hfb 7]
    have hhdrS : read_box_header (moovStream s0 s1 s2 s3 rest)
        (24 + rest.length) = .ok (8, [102, 114, 101, 101], 8) := by
      unfold read_box_header
      rw [if_neg (show ¬ (moovStream s0 s1 s2 s3 rest).length <
            24 + rest.length + 8 by rw [hslen]; omega),
        hszS, if_neg (by omega), if_neg (by omega), htagS]
    have hboxS : read_box true (moovStream s0 s1 s2 s3 rest) (f + 2)
        (24 + rest.length) = ([], .ok (8, false)) := by
      conv_lhs => rw [read_box]
      rw [hhdrS]
      dsimp only
      rw [if_neg (by omega), if_pos rfl, if_neg (by decide)]
    have hboxEnd : read_box true (moovStream s0 s1 s2 s3 rest) (f + 1)
        (24 + rest.length + 8) = ([], .error .eofHeader) := by
      conv_lhs => rw [read_box]
      rw [show read_box_header (moovStream s0 s1 s2 s3 rest)
            (24 + rest.length + 8) = .error .eofHeader by
          unfold read_box_header
          rw [if_pos (by rw [hslen]; omega)]]
    have hW1 : walkLoop true (moovStream s0 s1 s2 s3 rest) (f + 1)
        (24 + rest.length + 8) = ([], [], EndKind.caught Err.eofHeader) := by
      conv_lhs => rw [walkLoop]
      rw [hboxEnd]
    have hW2 : walkLoop true (moovStream s0 s1 s2 s3 rest) (f + 2)
        (24 + rest.length) =
        ([], [24 + rest.length], EndKind.caught Err.eofHeader) := by
      conv_lhs => rw [walkLoop]
      rw [hboxS]
      dsimp only
      rw [if_neg (by decide), if_neg (by decide),
        show (24 + rest.length + 8) % 18446744073709551616 =
          24 + rest.length + 8 from Nat.mod_eq_of_lt (by omega),
        hW1]
      simp
    unfold parse_mp4_atoms
    conv_lhs => rw [walkLoop]
    rw [hbox0]
    dsimp only
    rw [if_neg (by omega), if_neg (by decide),
      show (0 + (24 + rest.length)) % 18446744073709551616 =
        24 + rest.length by omega,
      hW2]
    simp

/-- C9 witness: part one applied to the stream with one top-level meta box
(whose xml output is indeed of xml form), part two applied to a moov box
whose payload is a complete nested meta box with xml content. -/
theorem xml_mode_dispatches_only_meta_witness :
    ((Out.xmlText (some [60, 97, 0, 62, 0, 65, 66]) ∈
        (walkLoop true streamTopMeta 2 0).1) ∧
      (Out.xmlText (some [60, 97, 0, 62, 0, 65, 66]) = Out.sizeZeroMsg ∨
        ∃ b, Out.xmlText (some [60, 97, 0, 62, 0, 65, 66]) = Out.xmlText b))
    ∧ ((0 : Nat) < 128 ∧ (0 : Nat) < 256 ∧ (0 : Nat) < 256 ∧ (56 : Nat) < 256 ∧
      0 * 16777216 + 0 * 65536 + 0 * 256 + 56 = 24 + metaChild.length ∧
      (3 : Nat) ≤ 3 ∧
      parse_mp4_atoms true (moovStream 0 0 0 56 metaChild) 3 =
        ([], [0, 24 + metaChild.length], EndKind.caught Err.eofHeader)) :=
  ⟨⟨by decide,
    xml_mode_dispatches_only_meta.1 streamTopMeta 2 0
      (Out.xmlText (some [60, 97, 0, 62, 0, 65, 66])) (by decide)⟩,
   ⟨by decide, by decide, by decide, by decide, by decide, by decide,
    xml_mode_dispatches_only_meta.2 0 0 0 56 metaChild 3 (by decide) (by decide)
      (by decide) (by decide) (by decide) (by decide)⟩⟩

end MP42Str
